import Mathlib

/-!
The gotunl command line client, `main.go`.

A shallow embedding of `main.go` and the properties of its duration formatter,
status listing, connect polling loop, disconnect controller and command-line
dispatch.

Conventions of the embedding:

* Go strings are Lean `String`s; Go's bytewise `<` on strings is the
  lexicographic order on code points (the two agree on UTF-8 text).
* `time.Duration` and `int64` values are `Int`s; operations that can leave the
  64-bit range are wrapped with `wrap64`; Go's `/` and `%` truncate toward
  zero (`Int.tdiv`, `Int.tmod`).
* `gt.Profiles` is a Go map; a `range` over it is a traversal of its entries
  in some order, so the registry is the list of `(key, profile)` entries in
  iteration order.
* What `main.go` obtains from other packages and from the operating system
  (gjson, `strings.Title`, `strings.TrimSpace`, `sort.Slice`, the clock, the
  keychain command, the terminal, the pritunl service) is collected in `Lib`;
  the functions of `main.go` take it as a parameter.
* Calls to the collaborator and terminal output are recorded as a list of
  `Event`s in program order.
-/

namespace Gotunl

/-! ## Basic types -/

/-- Two's-complement wrap-around of a 64-bit signed integer operation. -/
def wrap64 (x : Int) : Int := (x + 2^63) % 2^64 - 2^63

/-- The constant `time.Second`, in nanoseconds. -/
def Second : Int := 1000000000

/-- The constant `time.Minute`, in nanoseconds. -/
def Minute : Int := 60 * Second

/-- The constant `time.Hour`, in nanoseconds. -/
def Hour : Int := 60 * Minute

/-- Value of `fmt.Sprintf("%d", n)` for an integer-kinded `n`: signed decimal. -/
def sprintfD (n : Int) : String := toString n

/-- Value of `strconv.Itoa(n)`: signed decimal. -/
def Itoa (n : Int) : String := toString n

/-- Value of `a < b` on Go strings. -/
def stringLess (a b : String) : Bool := decide (a.toList < b.toList)

/-- Value of `strings.Contains(s, substr)`. -/
def Contains (s substr : String) : Bool := decide (substr.toList <:+: s.toList)

/-- The package variable `version`, line 20. -/
def version : String := "1.2.0"

/-- The package variable `keychainService`, line 21. -/
def keychainService : String := "pritunl-auth"

/-- The package variable `color`, lines 22-25; a key that is absent maps to
the empty string, as in a Go map of strings. -/
def color (key : String) : String :=
  if key = "red" then "\x1b[31;1m"
  else if key = "green" then "\x1b[32;1m"
  else if key = "reset" then "\x1b[0m"
  else ""

/-- The struct `connections`, lines 27-34. -/
structure connections where
  id : String := ""
  name : String := ""
  status : String := ""
  timestamp : Int := 0
  clientAddr : String := ""
  serverAddr : String := ""
deriving DecidableEq, Repr

/-- The fields of a `gotunl` profile that `main.go` reads. -/
structure Profile where
  ID : Int
  Conf : String
deriving DecidableEq, Repr

/-- The registry `gt.Profiles` as its entries `(key, profile)` in the order a
`range` visits them. -/
abbrev Registry := List (String × Profile)

/-- Observable actions, in program order. -/
inductive Event where
  | ConnectProfile (pid hint password : String)
  | DisconnectProfile (pid : String)
  | StopConnections
  | CheckStatus
  | Print (s : String)
  | Sleep (seconds : Nat)
  | Log (msg : String)
  | Fatal (msg : String)
  | Exec (command : String)
  | Scanln
deriving DecidableEq, Repr

/-- Behaviour of the packages and of the environment that `main.go` calls. -/
structure Lib where
  /-- Value of `runtime.GOOS`. -/
  GOOS : String
  /-- Value of `gjson.Get(json, path).String()`. -/
  gjsonString : String → String → String
  /-- Value of `gjson.Get(json, path).Int()`. -/
  gjsonInt : String → String → Int
  /-- Value of `strings.Title(s)`. -/
  Title : String → String
  /-- Value of `strings.TrimSpace(s)`. -/
  TrimSpace : String → String
  /-- Content of the slice after `sort.Slice(c, less)`. -/
  sortSlice : (connections → connections → Bool) → List connections → List connections
  /-- Value of `time.Since(time.Unix(sec, 0))`, in nanoseconds. -/
  Since : Int → Int
  /-- Outcome of `exec.Command("bash", "-c", command).Output()`: the standard
  output, or the text of the error. -/
  Output : String → Except String String
  /-- The token the `n`-th call of `fmt.Scanln(&otp)` stores in `otp`. -/
  Scanln : Nat → String
  /-- The answer of the `n`-th call of `gt.CheckStatus()`. -/
  CheckStatus : Nat → String

/-! ## `formatSince`, lines 153-180 -/

/-- The function `formatSince`; `elapsed` is the value of `time.Since(t)`. -/
def formatSince (elapsed : Int) : String :=
  let Day := 24 * Hour
  let ts := elapsed
  let sign : Int := if ts < 0 then -1 else 1
  let ts := if ts < 0 then wrap64 (-ts) else ts
  let d := wrap64 (sign * (Int.tdiv ts Day))
  let ts := Int.tmod ts Day
  let h := Int.tdiv ts Hour
  let ts := Int.tmod ts Hour
  let m := Int.tdiv ts Minute
  let ts := Int.tmod ts Minute
  let s := Int.tdiv ts Second
  let days := if d > 0 then sprintfD d ++ " days " else ""
  let hours := if h > 0 then sprintfD h ++ " hrs " else ""
  let minutes := if m > 0 then sprintfD m ++ " mins " else ""
  let seconds := sprintfD s ++ " secs"
  days ++ hours ++ minutes ++ seconds

/-- The string the specification composes from `sTotal` whole elapsed seconds:
days, hours and minutes each only when positive, seconds always. -/
def specFormat (sTotal : Int) : String :=
  let d := sTotal / 86400
  let h := (sTotal % 86400) / 3600
  let m := (sTotal % 3600) / 60
  let s := sTotal % 60
  (if d > 0 then sprintfD d ++ " days " else "") ++
  (if h > 0 then sprintfD h ++ " hrs " else "") ++
  (if m > 0 then sprintfD m ++ " mins " else "") ++
  (sprintfD s ++ " secs")

/-! ## `listConnections`, lines 36-93 -/

/-- The comparison closure given to `sort.Slice`, line 70. -/
def lessById (a b : connections) : Bool := stringLess a.id b.id

/-- The variables declared before the loop of lines 46-72 that outlive an
iteration: the slice `c` and the flag `anycon`. -/
structure LoopState where
  c : List connections := []
  anycon : Bool := false

/-- The value assigned to `stdis`, lines 48-54. -/
def stdis (L : Lib) : String :=
  if L.GOOS ≠ "windows" then color "red" ++ "Disconnected" ++ color "reset"
  else "Disconnected"

/-- The value assigned to `stcon`, lines 48-54. -/
def stcon (L : Lib) : String :=
  if L.GOOS ≠ "windows" then color "green" ++ "Connected" ++ color "reset"
  else "Connected"

/-- Lines 47-67 of the loop body, for the entry `(pid, p)`: the record `ptmp`
and the value of `anycon` after it. -/
def buildRecord (L : Lib) (cons : String) (anycon : Bool) (e : String × Profile) :
    connections × Bool :=
  let pid := e.1
  let p := e.2
  let ptmp : connections := {}
  let ptmp := { ptmp with status := stdis L }
  let ptmp := { ptmp with name := L.gjsonString p.Conf "name" }
  let ptmp := { ptmp with id := Itoa p.ID }
  if Contains cons pid then
    let ptmp := { ptmp with status := L.Title (L.gjsonString cons (pid ++ ".status")) }
    let ptmp := { ptmp with serverAddr := L.gjsonString cons (pid ++ ".server_addr") }
    let ptmp := { ptmp with clientAddr := L.gjsonString cons (pid ++ ".client_addr") }
    let ptmp := { ptmp with timestamp := L.gjsonInt cons (pid ++ ".timestamp") }
    if ptmp.status = "Connected" then ({ ptmp with status := stcon L }, true)
    else (ptmp, anycon)
  else (ptmp, anycon)

/-- One iteration of the loop of lines 46-72: the record is built, appended
(line 68) and the slice is sorted (lines 69-71). -/
def listConnectionsStep (L : Lib) (cons : String) (st : LoopState)
    (e : String × Profile) : LoopState :=
  let r := buildRecord L cons st.anycon e
  let c := st.c ++ [r.1]
  let c := L.sortSlice lessById c
  { c := c, anycon := r.2 }

/-- The loop of lines 42-72: the records and the flag `anycon` it leaves. -/
def listConnectionsLoop (L : Lib) (profiles : Registry) (cons : String) : LoopState :=
  profiles.foldl (listConnectionsStep L cons) {}

/-- The table handed to the table writer. -/
structure Table where
  header : List String
  rows : List (List String)
deriving DecidableEq, Repr

/-- The value of `since` computed for a record, lines 81-85. -/
def sinceOf (L : Lib) (p : connections) : String :=
  if p.timestamp > 0 then formatSince (L.Since p.timestamp) else ""

/-- The row appended for a record, lines 86-90. -/
def rowOf (L : Lib) (anycon : Bool) (p : connections) : List String :=
  if anycon then [p.id, p.name, p.status, sinceOf L p, p.clientAddr, p.serverAddr]
  else [p.id, p.name, p.status]

/-- The function `listConnections`; `cons` is the text `gt.GetConnections()`
returns. With an empty registry the message is printed and the process exits
with status 1 (`Except.error`); otherwise the table is rendered. -/
def listConnections (L : Lib) (profiles : Registry) (cons : String) :
    Except (String × Nat) Table :=
  if profiles.length = 0 then .error ("No profiles found in Pritunl", 1)
  else
    let st := listConnectionsLoop L profiles cons
    let header := if st.anycon then
        ["ID", "Name", "Status", "Connected for", "Client IP", "Server IP"]
      else ["ID", "Name", "Status"]
    .ok { header := header, rows := st.c.map (rowOf L st.anycon) }

/-! ## `disconnect`, lines 95-106 -/

/-- The function `disconnect`: the collaborator calls it issues. -/
def disconnect (L : Lib) (profiles : Registry) (id : String) : List Event :=
  if id = "all" then [Event.StopConnections]
  else
    profiles.foldl (fun tr e =>
      if id = L.gjsonString e.2.Conf "name" ∨ id = Itoa e.2.ID then
        tr ++ [Event.DisconnectProfile e.1]
      else tr) []

/-! ## `connect`, lines 116-151 -/

/-- The loop of lines 139-147, entered with the counter at `i` when `q` calls
of `gt.CheckStatus()` have been made so far: the events of the loop and the
number of `CheckStatus` calls made once it has ended. -/
def pollLoop (L : Lib) (i q : Nat) : List Event × Nat :=
  if i < 30 then
    if L.CheckStatus q = "true" then
      ([Event.Print ".", Event.CheckStatus], q + 1)
    else
      let r := pollLoop L (i + 1) (q + 1)
      ([Event.Print ".", Event.CheckStatus, Event.Sleep 1] ++ r.1, r.2)
  else ([], q)
termination_by 30 - i

/-- The state threaded through `connect`: the events so far, how many times
`fmt.Scanln` and `gt.CheckStatus()` have been called, and whether `log.Fatalf`
has ended the process. -/
structure Run where
  trace : List Event := []
  scans : Nat := 0
  checks : Nat := 0
  fatal : Bool := false

/-- The command line built at line 122. -/
def keychainCommand (name : String) : String :=
  "security find-generic-password -w -s \x27" ++ keychainService ++ "\x27 -a \x27" ++ name
    ++ "\x27"

/-- Lines 137-148: the connect request, the polling loop and the final
newline, with `password` assembled. -/
def connectRequest (L : Lib) (pid password : String) (st : Run) : Run :=
  let r := pollLoop L 0 st.checks
  { st with
    trace := st.trace ++ [Event.ConnectProfile pid "" password, Event.Print "Connecting"]
      ++ r.1 ++ [Event.Print "\n"],
    checks := r.2 }

/-- One iteration of the loop of lines 117-150, for the entry `(pid, p)`;
nothing runs once the process has been terminated. -/
def connectStep (L : Lib) (id : String) (st : Run) (e : String × Profile) : Run :=
  if st.fatal then st
  else
    let pid := e.1
    let p := e.2
    let name := L.gjsonString p.Conf "name"
    if id = name ∨ id = Itoa p.ID then
      if L.GOOS = "darwin" then
        let command := keychainCommand name
        let st := { st with trace := st.trace ++
          [Event.Log ("Trying to get PIN from using [" ++ command ++ "]"), Event.Exec command] }
        match L.Output command with
        | .error err =>
          { st with
            trace := st.trace ++ [Event.Fatal ("Error [" ++ err ++
              "] while executing the command. Is password missing in the keychain?")],
            fatal := true }
        | .ok out =>
          let pincode := L.TrimSpace out
          let otp := L.Scanln st.scans
          let st := { st with
            trace := st.trace ++ [Event.Log "Fetched a PIN from keychain",
              Event.Print "Enter the OTP code: ", Event.Scanln],
            scans := st.scans + 1 }
          connectRequest L pid (pincode ++ otp) st
      else connectRequest L pid "" st
    else st

/-- The function `connect`. -/
def connect (L : Lib) (profiles : Registry) (id : String) : Run :=
  profiles.foldl (connectStep L id) {}

/-! ## `main`, lines 190-230 -/

/-- The values of the flags declared at lines 197-201 (with their defaults)
and the arguments left after the flags. -/
structure Flags where
  l : Bool := false
  a : Bool := false
  c : String := ""
  d : Bool := false
  v : Bool := false
  rest : List String := []
deriving DecidableEq, Repr

/-- Outcome of `flag.Parse()` under the default `flag.ExitOnError` policy. -/
inductive Parsed where
  | ok (f : Flags)
  | help
  | failed (msg : String)
deriving DecidableEq, Repr

/-- Value of `strconv.ParseBool(s)`, `none` for an error. -/
def ParseBool (s : String) : Option Bool :=
  if s ∈ ["1", "t", "T", "TRUE", "true", "True"] then some true
  else if s ∈ ["0", "f", "F", "FALSE", "false", "False"] then some false
  else none

/-- Splits the text of a flag after its dashes at the first `=` that is not
its first character: the name and, when there is an `=`, the value. -/
def splitFlag (name : List Char) : String × Option String :=
  match name with
  | [] => ("", none)
  | ch :: tl =>
    match tl.span (fun x => x != '=') with
    | (pre, []) => (String.mk (ch :: pre), none)
    | (pre, _ :: value) => (String.mk (ch :: pre), some (String.mk value))

/-- Stores a value in a boolean flag of `main`. -/
def setBool (f : Flags) (name : String) (b : Bool) : Flags :=
  if name = "l" then { f with l := b }
  else if name = "a" then { f with a := b }
  else if name = "d" then { f with d := b }
  else { f with v := b }

/-- The loop of `flag.Parse()` over the arguments after the program name, for
the five flags of `main`: `l`, `a`, `d`, `v` are boolean, `c` takes a string. -/
def parseArgs (f : Flags) : List String → Parsed
  | [] => .ok { f with rest := [] }
  | s :: args =>
    match s.toList with
    | '-' :: c1 :: more =>
      if c1 = '-' ∧ more = [] then .ok { f with rest := args }
      else
        let name := if c1 = '-' then more else c1 :: more
        if name.head? = some '-' ∨ name.head? = some '=' then
          .failed ("bad flag syntax: " ++ s)
        else
          let nv := splitFlag name
          if nv.1 ∈ ["l", "a", "d", "v"] then
            match nv.2 with
            | none => parseArgs (setBool f nv.1 true) args
            | some value =>
              match ParseBool value with
              | some b => parseArgs (setBool f nv.1 b) args
              | none => .failed ("invalid boolean value for -" ++ nv.1)
          else if nv.1 = "c" then
            match nv.2 with
            | some value => parseArgs { f with c := value } args
            | none =>
              match args with
              | value :: args2 => parseArgs { f with c := value } args2
              | [] => .failed "flag needs an argument: -c"
          else if nv.1 = "help" ∨ nv.1 = "h" then .help
          else .failed ("flag provided but not defined: -" ++ nv.1)
    | _ => .ok { f with rest := s :: args }

/-- The functions of `main.go` that `main` calls, with their argument. -/
inductive Call where
  | usage
  | listConnections
  | activeProfiles
  | connect (id : String)
  | disconnect (id : String)
  | printVersion
deriving DecidableEq, Repr

/-- What a run of `main` does: the calls in order and the exit status. -/
structure MainRun where
  calls : List Call
  exit : Nat
deriving DecidableEq, Repr

/-- The calls of `listConnections` followed by `os.Exit(0)`, lines 209-210:
with an empty registry `listConnections` itself exits with status 1. -/
def thenList (profiles : Registry) (calls : List Call) : MainRun :=
  { calls := calls ++ [Call.listConnections], exit := if profiles.length = 0 then 1 else 0 }

/-- The function `main`; `args` is `os.Args` without the program name. A
parse error exits with status 2 and a help request with status 0, as
`flag.ExitOnError` prescribes. The calls are those `main` makes when each
callee returns; the exit of `listConnections` on an empty registry is in
`thenList`, the `log.Fatalf` of `connect` is recorded by `connect` itself. -/
def main (profiles : Registry) (args : List String) : MainRun :=
  match parseArgs {} args with
  | .failed _ => { calls := [Call.usage], exit := 2 }
  | .help => { calls := [Call.usage], exit := 0 }
  | .ok f =>
    if args.length + 1 < 2 then { calls := [Call.usage], exit := 1 }
    else if f.l then thenList profiles []
    else if f.a then { calls := [Call.activeProfiles], exit := 0 }
    else if f.c ≠ "" then thenList profiles [Call.connect f.c]
    else if f.d then thenList profiles [Call.disconnect "all"]
    else if f.v then { calls := [Call.printVersion], exit := 1 }
    else { calls := [], exit := 1 }

/-- The collaborator calls a run of `main` issues through `disconnect`. -/
def teardownEvents (L : Lib) (profiles : Registry) (r : MainRun) : List Event :=
  r.calls.foldl (fun tr call =>
    match call with
    | .disconnect id => tr ++ disconnect L profiles id
    | _ => tr) []

/-! ## Specification-side definitions -/

/-- Contract of `sort.Slice` under the comparison of line 70: the slice is
rearranged, and afterwards no record stands before one of smaller id. -/
def SortsById (L : Lib) : Prop :=
  ∀ l : List connections, (L.sortSlice lessById l).Perm l ∧
    (L.sortSlice lessById l).Pairwise (fun a b => lessById b a = false)

/-- Whether the requested identifier selects the entry, lines 100 and 119. -/
def selects (L : Lib) (id : String) (e : String × Profile) : Bool :=
  decide (id = L.gjsonString e.2.Conf "name" ∨ id = Itoa e.2.ID)

/-- The stored secret of the profile called `name`: the trimmed output of the
keychain command (empty when the command fails). -/
def storedSecret (L : Lib) (name : String) : String :=
  match L.Output (keychainCommand name) with
  | .ok out => L.TrimSpace out
  | .error _ => ""

/-- The password the specification assembles for the `n`-th prompt: the stored
secret directly followed by the one-time code on the keychain platform, empty
elsewhere. -/
def specPassword (L : Lib) (name : String) (n : Nat) : String :=
  if L.GOOS = "darwin" then storedSecret L name ++ L.Scanln n else ""

/-- The connect requests the specification prescribes: one per selected entry,
in registry order, `n` counting the prompts answered so far. -/
def specConnects (L : Lib) (id : String) : Nat → Registry → List Event
  | _, [] => []
  | n, e :: rest =>
    if selects L id e then
      Event.ConnectProfile e.1 "" (specPassword L (L.gjsonString e.2.Conf "name") n)
        :: specConnects L id (n + 1) rest
    else specConnects L id n rest

/-- The `ConnectProfile` calls of a trace. -/
def connectCalls (tr : List Event) : List Event :=
  tr.filter (fun ev => match ev with
    | .ConnectProfile _ _ _ => true
    | _ => false)

/-- Number of `gt.CheckStatus()` queries in a trace. -/
def queries (tr : List Event) : Nat := tr.count Event.CheckStatus

/-- Number of one-second sleeps in a trace. -/
def sleeps (tr : List Event) : Nat := tr.count (Event.Sleep 1)

/-- Number of progress indicators in a trace. -/
def indicators (tr : List Event) : Nat := tr.count (Event.Print ".")

/-- The events of `n` iterations whose query is not affirmative. -/
def waitingRounds : Nat → List Event
  | 0 => []
  | n + 1 => [Event.Print ".", Event.CheckStatus, Event.Sleep 1] ++ waitingRounds n

/-! ## A concrete library, for evaluating the functions on examples -/

/-- Insertion of `x` into a sorted list, after the elements that are not
greater. -/
def insertLess (less : connections → connections → Bool) (x : connections) :
    List connections → List connections
  | [] => [x]
  | y :: l => if less x y then x :: y :: l else y :: insertLess less x l

/-- Insertion sort, the algorithm `sort.Slice` runs on slices of at most
twelve elements. -/
def insertionSort (less : connections → connections → Bool) (l : List connections) :
    List connections :=
  l.foldl (fun acc x => insertLess less x acc) []

/-- The loop of `strings.Title` on ASCII text: a letter is upper-cased when
the previous character is not a letter, a digit or an underscore. -/
def titleFrom (prev : Char) : List Char → List Char
  | [] => []
  | r :: rest =>
    (if prev.isAlphanum || prev = '_' then r else r.toUpper) :: titleFrom r rest

/-- Value of `strings.Title(s)` on ASCII text. -/
def asciiTitle (s : String) : String := String.mk (titleFrom ' ' s.toList)

/-- Value of `unicode.IsSpace(c)`: tab, line feed, vertical tab, form feed,
carriage return, space, U+0085, U+00A0 and the other characters with the
white-space property. -/
def isSpace (c : Char) : Bool :=
  (9 ≤ c.toNat && c.toNat ≤ 13) || c.toNat = 32 || c.toNat = 133 || c.toNat = 160 ||
  c.toNat = 5760 || (8192 ≤ c.toNat && c.toNat ≤ 8202) || c.toNat = 8232 ||
  c.toNat = 8233 || c.toNat = 8239 || c.toNat = 8287 || c.toNat = 12288

/-- Value of `strings.TrimSpace(s)`: leading and trailing white space removed. -/
def asciiTrimSpace (s : String) : String :=
  String.mk ((s.toList.dropWhile isSpace).reverse.dropWhile isSpace).reverse

/-- Saturation at the bounds of `int64`, as `Time.Sub` does when the
difference does not fit a `time.Duration`. -/
def saturate64 (x : Int) : Int :=
  if x < -2^63 then -2^63 else if 2^63 - 1 < x then 2^63 - 1 else x

/-- Configuration document of the profile named `home`. -/
def homeConf : String := "\x7b\"name\":\"home\"\x7d"

/-- Configuration document of the profile named `office`. -/
def officeConf : String := "\x7b\"name\":\"office\"\x7d"

/-- A snapshot whose only entry has the key `ab12cd`. -/
def snapshot : String :=
  "\x7b\"ab12cd\":\x7b\"id\":\"ab12cd\",\"status\":\"connected\",\"timestamp\":1700000000," ++
  "\"server_addr\":\"203.0.113.7\",\"client_addr\":\"10.8.0.2\"\x7d\x7d"

/-- What gjson answers, as a string, on the three documents above; every other
path of these documents is absent, for which gjson gives the empty string. -/
def sampleGjsonString (json path : String) : String :=
  if json = homeConf ∧ path = "name" then "home"
  else if json = officeConf ∧ path = "name" then "office"
  else if json = snapshot ∧ path = "ab12cd.id" then "ab12cd"
  else if json = snapshot ∧ path = "ab12cd.status" then "connected"
  else if json = snapshot ∧ path = "ab12cd.timestamp" then "1700000000"
  else if json = snapshot ∧ path = "ab12cd.server_addr" then "203.0.113.7"
  else if json = snapshot ∧ path = "ab12cd.client_addr" then "10.8.0.2"
  else ""

/-- What gjson answers, as an integer, on the three documents above. -/
def sampleGjsonInt (json path : String) : Int :=
  if json = snapshot ∧ path = "ab12cd.timestamp" then 1700000000 else 0

/-- A library on a non-Windows, non-macOS platform: the clock stands at
second 1700003665, the keychain holds `1234`, the operator types `567890`, and
the third status query is the first affirmative one. -/
def sampleLib : Lib where
  GOOS := "linux"
  gjsonString := sampleGjsonString
  gjsonInt := sampleGjsonInt
  Title := asciiTitle
  TrimSpace := asciiTrimSpace
  sortSlice := insertionSort
  Since := fun sec => saturate64 ((1700003665 - sec) * Second)
  Output := fun _ => .ok "1234\n"
  Scanln := fun _ => "567890"
  CheckStatus := fun n => if n = 2 then "true" else "false"

/-- The same library on macOS. -/
def darwinLib : Lib := { sampleLib with GOOS := "darwin" }

/-- The same library with a service that confirms at the first query. -/
def promptLib : Lib := { sampleLib with CheckStatus := fun _ => "true" }

/-- A registry of two profiles with the numeric ids 2 and 10. -/
def sampleRegistry : Registry :=
  [("ab12", { ID := 2, Conf := homeConf }), ("ab12cd", { ID := 10, Conf := officeConf })]

/-! ## Properties of `formatSince` -/

theorem wrap64_of_range {x : Int} (h1 : -2^63 ≤ x) (h2 : x < 2^63) : wrap64 x = x := by
  unfold wrap64; omega

theorem formatSince_of_nonneg (e : Int) (he : 0 ≤ e) (hlt : e < 2^63) :
    formatSince e = specFormat (e / Second) := by
  have hneg : ¬ e < 0 := by omega
  simp only [formatSince, specFormat, hneg, if_false, Hour, Minute, Second, one_mul]
  have hD : Int.tdiv e (24 * (60 * (60 * 1000000000))) = e / 86400000000000 :=
    Int.tdiv_eq_ediv he (by norm_num)
  have hDm : Int.tmod e (24 * (60 * (60 * 1000000000))) = e % 86400000000000 :=
    Int.tmod_eq_emod he (by norm_num)
  rw [hD, hDm]
  have h1 : 0 ≤ e % 86400000000000 := by omega
  rw [Int.tdiv_eq_ediv h1 (by norm_num), Int.tmod_eq_emod h1 (by norm_num)]
  have h2 : 0 ≤ e % 86400000000000 % (60 * (60 * 1000000000)) := by omega
  rw [Int.tdiv_eq_ediv h2 (by norm_num), Int.tmod_eq_emod h2 (by norm_num)]
  have h3 : 0 ≤ e % 86400000000000 % (60 * (60 * 1000000000)) % (60 * 1000000000) := by
    omega
  rw [Int.tdiv_eq_ediv h3 (by norm_num)]
  have e1 : wrap64 (e / 86400000000000) = e / 1000000000 / 86400 := by
    rw [wrap64_of_range (by omega) (by omega)]; omega
  have e2 : e % 86400000000000 / (60 * (60 * 1000000000))
      = e / 1000000000 % 86400 / 3600 := by omega
  have e3 : e % 86400000000000 % (60 * (60 * 1000000000)) / (60 * 1000000000)
      = e / 1000000000 % 3600 / 60 := by omega
  have e4 : e % 86400000000000 % (60 * (60 * 1000000000)) % (60 * 1000000000) / 1000000000
      = e / 1000000000 % 60 := by omega
  rw [e1, e2, e3, e4]

/-- The day count of a magnitude below one day is zero under either sign. -/
theorem days_zero_of_lt_day (sign e : Int) (he : 0 ≤ e) (hlt : e < 24 * Hour) :
    wrap64 (sign * Int.tdiv e (24 * Hour)) = 0 := by
  have h0 : Int.tdiv e (24 * Hour) = 0 := by
    rw [Int.tdiv_eq_ediv he (by simp [Hour, Minute, Second])]
    simp only [Hour, Minute, Second] at hlt ⊢
    omega
  rw [h0]; simp [wrap64]

/-- C1: for every non-negative elapsed duration `e` (a 64-bit count of
nanoseconds), `formatSince` returns the string composed from `e` truncated to
whole seconds: days, hours and minutes each only when positive, seconds
always, in that order; 5 s, 65 s, 90065 s and 0 s give the four strings of
the specification. -/
theorem formatSince_spec (e : Int) (he : 0 ≤ e) (hlt : e < 2^63) :
    formatSince e = specFormat (e / Second) ∧
    formatSince (5 * Second) = "5 secs" ∧
    formatSince (65 * Second) = "1 mins 5 secs" ∧
    formatSince (90065 * Second) = "1 days 1 hrs 1 mins 5 secs" ∧
    formatSince (0 * Second) = "0 secs" :=
  ⟨formatSince_of_nonneg e he hlt, by decide, by decide, by decide, by decide⟩

/-- C1 at an elapsed time of 3725.999999999 s. -/
theorem formatSince_spec_witness :
    (0 : Int) ≤ 3725999999999 ∧ (3725999999999 : Int) < 2^63 ∧
    (formatSince 3725999999999 = specFormat (3725999999999 / Second) ∧
    formatSince (5 * Second) = "5 secs" ∧
    formatSince (65 * Second) = "1 mins 5 secs" ∧
    formatSince (90065 * Second) = "1 days 1 hrs 1 mins 5 secs" ∧
    formatSince (0 * Second) = "0 secs") :=
  ⟨by decide, by decide, formatSince_spec 3725999999999 (by decide) (by decide)⟩

/-- C2, as the code has it: for every elapsed duration `e` of magnitude below
one day, `formatSince` returns for `-e` the string it returns for `e`. -/
theorem formatSince_neg_of_lt_day (e : Int) (h1 : -(24 * Hour) < e) (h2 : e < 24 * Hour) :
    formatSince (-e) = formatSince e := by
  have hH : (24 * Hour : Int) = 86400000000000 := by simp [Hour, Minute, Second]
  rw [hH] at h1 h2
  rcases lt_trichotomy e 0 with hneg | hzero | hpos
  · have hn : ¬ (-e < 0) := by omega
    have hw : wrap64 (- e) = -e := wrap64_of_range (by omega) (by omega)
    have d1 := days_zero_of_lt_day 1 (-e) (by omega) (by rw [hH]; omega)
    have d2 := days_zero_of_lt_day (-1) (-e) (by omega) (by rw [hH]; omega)
    simp only [formatSince, hn, hneg, if_true, if_false, hw, d1, d2]
  · subst hzero; rfl
  · have hn : ¬ (e < 0) := by omega
    have hn2 : -e < 0 := by omega
    have hw : wrap64 (- -e) = e := by rw [neg_neg]; exact wrap64_of_range (by omega) (by omega)
    have d1 := days_zero_of_lt_day 1 e (by omega) (by rw [hH]; omega)
    have d2 := days_zero_of_lt_day (-1) e (by omega) (by rw [hH]; omega)
    simp only [formatSince, hn, hn2, if_true, if_false, hw, d1, d2]

/-- C2 at an elapsed time of 3665 s. -/
theorem formatSince_neg_of_lt_day_witness :
    -(24 * Hour) < 3665 * Second ∧ 3665 * Second < 24 * Hour ∧
    formatSince (-(3665 * Second)) = formatSince (3665 * Second) :=
  ⟨by decide, by decide, formatSince_neg_of_lt_day (3665 * Second) (by decide) (by decide)⟩

/-- C2 fails at one day or more: an elapsed time of 90065 s gives
`1 days 1 hrs 1 mins 5 secs`, the elapsed time -90065 s gives
`1 hrs 1 mins 5 secs`, the day count having taken the sign. -/
theorem formatSince_neg_counterexample :
    formatSince (90065 * Second) = "1 days 1 hrs 1 mins 5 secs" ∧
    formatSince (-(90065 * Second)) = "1 hrs 1 mins 5 secs" ∧
    formatSince (-(90065 * Second)) ≠ formatSince (90065 * Second) := by
  decide

/-! ## Properties of `listConnections` -/

theorem stringLess_iff (a b : String) : stringLess a b = true ↔ a < b := by
  simp [stringLess, String.lt_iff_toList_lt]

theorem lessById_false_iff (a b : connections) : lessById b a = false ↔ a.id ≤ b.id := by
  rw [← Bool.not_eq_true, lessById, stringLess_iff, not_lt]

/-- The record built for an entry does not depend on the incoming flag. -/
theorem buildRecord_fst (L : Lib) (cons : String) (b : Bool) (e : String × Profile) :
    (buildRecord L cons b e).1 = (buildRecord L cons false e).1 := by
  simp only [buildRecord]
  split_ifs <;> rfl

theorem buildRecord_id (L : Lib) (cons : String) (b : Bool) (e : String × Profile) :
    (buildRecord L cons b e).1.id = Itoa e.2.ID := by
  simp only [buildRecord]
  split_ifs <;> rfl

theorem buildRecord_name (L : Lib) (cons : String) (b : Bool) (e : String × Profile) :
    (buildRecord L cons b e).1.name = L.gjsonString e.2.Conf "name" := by
  simp only [buildRecord]
  split_ifs <;> rfl

/-- The flag is raised by an entry or kept. -/
theorem buildRecord_snd (L : Lib) (cons : String) (b : Bool) (e : String × Profile) :
    (buildRecord L cons b e).2 = ((buildRecord L cons false e).2 || b) := by
  simp only [buildRecord]
  split_ifs <;> simp

theorem loop_perm (L : Lib) (hsort : SortsById L) (cons : String) (profiles : Registry) :
    ∀ st : LoopState, ((profiles.foldl (listConnectionsStep L cons) st).c).Perm
      (st.c ++ profiles.map (fun e => (buildRecord L cons false e).1)) := by
  induction profiles with
  | nil => intro st; simp
  | cons e rest ih =>
    intro st
    rw [List.foldl_cons]
    refine (ih _).trans ?_
    simp only [listConnectionsStep, List.map_cons]
    rw [buildRecord_fst L cons st.anycon e]
    have h := (hsort (st.c ++ [(buildRecord L cons false e).1])).1
    refine (List.Perm.append_right _ h).trans ?_
    simp

theorem loop_anycon (L : Lib) (cons : String) (profiles : Registry) :
    ∀ st : LoopState, (profiles.foldl (listConnectionsStep L cons) st).anycon =
      (st.anycon || profiles.any (fun e => (buildRecord L cons false e).2)) := by
  induction profiles with
  | nil => intro st; simp
  | cons e rest ih =>
    intro st
    rw [List.foldl_cons, ih]
    simp only [listConnectionsStep, List.any_cons]
    rw [buildRecord_snd L cons st.anycon e]
    cases (buildRecord L cons false e).2 <;> cases st.anycon <;> simp

theorem loop_sorted (L : Lib) (hsort : SortsById L) (cons : String) (profiles : Registry)
    (hne : profiles ≠ []) (st : LoopState) :
    ((profiles.foldl (listConnectionsStep L cons) st).c).Pairwise
      (fun a b => lessById b a = false) := by
  induction profiles using List.reverseRecOn with
  | nil => exact absurd rfl hne
  | append_singleton rest e _ =>
    rw [List.foldl_append, List.foldl_cons, List.foldl_nil]
    exact (hsort _).2

theorem insertLess_perm (less : connections → connections → Bool) (x : connections)
    (l : List connections) : (insertLess less x l).Perm (x :: l) := by
  induction l with
  | nil => simp [insertLess]
  | cons y l ih =>
    unfold insertLess
    split_ifs
    · exact List.Perm.refl _
    · exact (List.Perm.cons y ih).trans (List.Perm.swap x y l)

theorem insertLess_sorted (x : connections) (l : List connections)
    (hl : l.Pairwise (fun a b => lessById b a = false)) :
    (insertLess lessById x l).Pairwise (fun a b => lessById b a = false) := by
  induction l with
  | nil => simp [insertLess]
  | cons y l ih =>
    unfold insertLess
    rw [List.pairwise_cons] at hl
    split_ifs with hxy
    · rw [List.pairwise_cons]
      refine ⟨?_, List.pairwise_cons.2 hl⟩
      intro z hz
      rw [lessById_false_iff]
      have hxy2 : x.id < y.id := (stringLess_iff _ _).1 hxy
      rcases List.mem_cons.1 hz with rfl | hz
      · exact le_of_lt hxy2
      · exact le_trans (le_of_lt hxy2) ((lessById_false_iff _ _).1 (hl.1 z hz))
    · rw [List.pairwise_cons]
      refine ⟨?_, ih hl.2⟩
      intro z hz
      rcases List.mem_cons.1 ((insertLess_perm lessById x l).subset hz) with rfl | hz
      · simpa using hxy
      · exact hl.1 z hz

theorem insertionSort_spec (l : List connections) :
    (insertionSort lessById l).Perm l ∧
      (insertionSort lessById l).Pairwise (fun a b => lessById b a = false) := by
  unfold insertionSort
  have key : ∀ (l acc : List connections),
      acc.Pairwise (fun a b => lessById b a = false) →
      (l.foldl (fun acc x => insertLess lessById x acc) acc).Perm (acc ++ l) ∧
      (l.foldl (fun acc x => insertLess lessById x acc) acc).Pairwise
        (fun a b => lessById b a = false) := by
    intro l
    induction l with
    | nil => intro acc h; simpa using h
    | cons x l ih =>
      intro acc h
      rw [List.foldl_cons]
      have h2 := ih (insertLess lessById x acc) (insertLess_sorted x acc h)
      refine ⟨h2.1.trans ?_, h2.2⟩
      refine (List.Perm.append_right _ (insertLess_perm lessById x acc)).trans ?_
      exact List.perm_middle.symm
  simpa using key l [] List.Pairwise.nil

/-- The concrete library sorts as `sort.Slice` is specified to. -/
theorem sampleLib_sorts : SortsById sampleLib := fun l => insertionSort_spec l

/-- C3: for every non-empty registry and every snapshot, the records
`listConnections` builds are, up to order, exactly the records built for the
profiles, one each; the id of a profile's record is the decimal string of its
numeric ID and the name its configured name; the records are in ascending
order of the id under string (lexicographic) comparison; they are rendered
row by row; and with the ids 2 and 10 the order is `10`, `2`. -/
theorem listConnections_records (L : Lib) (hsort : SortsById L) (profiles : Registry)
    (cons : String) (hne : profiles ≠ []) :
    ((listConnectionsLoop L profiles cons).c).Perm
      (profiles.map (fun e => (buildRecord L cons false e).1)) ∧
    (∀ e : String × Profile, (buildRecord L cons false e).1.id = Itoa e.2.ID ∧
      (buildRecord L cons false e).1.name = L.gjsonString e.2.Conf "name") ∧
    ((listConnectionsLoop L profiles cons).c).Pairwise (fun a b => a.id ≤ b.id) ∧
    ((listConnectionsLoop L profiles cons).c).Pairwise
      (fun a b => stringLess b.id a.id = false) ∧
    (∃ header, listConnections L profiles cons = .ok
      { header := header,
        rows := (listConnectionsLoop L profiles cons).c.map
          (rowOf L (listConnectionsLoop L profiles cons).anycon) }) ∧
    (∀ r : connections, (rowOf L (listConnectionsLoop L profiles cons).anycon r).take 2
      = [r.id, r.name]) ∧
    ((profiles.map (fun e => e.2.ID)).Perm [2, 10] →
      (listConnectionsLoop L profiles cons).c.map (fun r => r.id) = ["10", "2"]) := by
  have hperm : ((listConnectionsLoop L profiles cons).c).Perm
      (profiles.map (fun e => (buildRecord L cons false e).1)) := by
    simpa [listConnectionsLoop] using loop_perm L hsort cons profiles {}
  have hsorted := loop_sorted L hsort cons profiles hne {}
  have hle : ((listConnectionsLoop L profiles cons).c).Pairwise (fun a b => a.id ≤ b.id) :=
    hsorted.imp (fun {a b} h => (lessById_false_iff a b).1 h)
  refine ⟨hperm, fun e => ⟨buildRecord_id L cons false e, buildRecord_name L cons false e⟩,
    hle, hsorted, ?_, ?_, ?_⟩
  · have hlen : ¬ profiles.length = 0 := by
      simpa [List.length_eq_zero] using hne
    simp only [listConnections, hlen, if_false]
    exact ⟨_, rfl⟩
  · intro r
    unfold rowOf
    split_ifs <;> rfl
  · intro hids
    have h1 : ((listConnectionsLoop L profiles cons).c.map (fun r => r.id)).Perm
        ["10", "2"] := by
      refine (hperm.map _).trans ?_
      rw [List.map_map]
      have h2 : (profiles.map ((fun r : connections => r.id) ∘
          fun e => (buildRecord L cons false e).1)) =
          (profiles.map (fun e => e.2.ID)).map Itoa := by
        rw [List.map_map]
        refine List.map_congr_left ?_
        intro e _
        exact buildRecord_id L cons false e
      rw [h2]
      refine (hids.map Itoa).trans ?_
      exact List.Perm.swap _ _ _
    have h3 : ((listConnectionsLoop L profiles cons).c.map (fun r => r.id)).Sorted
        (· ≤ ·) := by
      rw [List.Sorted, List.pairwise_map]
      exact hle
    have h4 : (["10", "2"] : List String).Sorted (· ≤ ·) := by
      simp only [List.Sorted, List.pairwise_cons, List.mem_singleton, forall_eq,
        List.not_mem_nil, false_imp_iff, implies_true, List.Pairwise.nil, and_true]
      refine le_of_lt ?_
      rw [String.lt_iff_toList_lt]
      decide
    exact List.eq_of_perm_of_sorted h1 h3 h4

/-- C3 on the sample registry, whose ids are 2 and 10. -/
theorem listConnections_records_witness :
    sampleRegistry ≠ [] ∧
    ((listConnectionsLoop sampleLib sampleRegistry snapshot).c).Perm
      (sampleRegistry.map (fun e => (buildRecord sampleLib snapshot false e).1)) ∧
    (listConnectionsLoop sampleLib sampleRegistry snapshot).c.map (fun r => r.id)
      = ["10", "2"] :=
  have h := listConnections_records sampleLib sampleLib_sorts sampleRegistry snapshot
    (by decide)
  ⟨by decide, h.1, h.2.2.2.2.2.2 (by decide)⟩

/-- The default record: for every profile of the registry whose key does
not occur anywhere in the text of the snapshot, the record built for it has
the disconnected label as status, timestamp 0 and therefore an empty since
string, and empty client and server addresses, and it is among the records
listed. -/
theorem listConnections_absent (L : Lib) (hsort : SortsById L) (profiles : Registry)
    (cons : String) (e : String × Profile) (he : e ∈ profiles)
    (habs : Contains cons e.1 = false) :
    (buildRecord L cons false e).1 =
      { id := Itoa e.2.ID, name := L.gjsonString e.2.Conf "name", status := stdis L,
        timestamp := 0, clientAddr := "", serverAddr := "" } ∧
    sinceOf L (buildRecord L cons false e).1 = "" ∧
    (buildRecord L cons false e).1 ∈ (listConnectionsLoop L profiles cons).c := by
  have hrec : (buildRecord L cons false e).1 =
      { id := Itoa e.2.ID, name := L.gjsonString e.2.Conf "name", status := stdis L,
        timestamp := 0, clientAddr := "", serverAddr := "" } := by
    simp only [buildRecord, habs]
    rfl
  refine ⟨hrec, ?_, ?_⟩
  · rw [hrec]; simp [sinceOf]
  · have hperm := loop_perm L hsort cons profiles {}
    refine (hperm.symm.subset ?_)
    simp only [List.nil_append, List.mem_map]
    exact ⟨e, he, rfl⟩

/-- C4 at a snapshot in which the key of a profile without a LiveConnection
occurs inside another key: the only entry of the snapshot has the key
`ab12cd`, gjson finds nothing under `ab12` (status and addresses empty,
timestamp 0), the substring guard of line 58 lets the profile `ab12` through,
and its record is listed with the empty string as status where the claim has
the disconnected label. -/
theorem listConnections_absent_key_blank :
    snapshot = "\x7b\"ab12cd\":\x7b\"id\":\"ab12cd\",\"status\":\"connected\",\"timestamp\":1700000000,\"server_addr\":\"203.0.113.7\",\"client_addr\":\"10.8.0.2\"\x7d\x7d" ∧
    (("ab12", { ID := 2, Conf := homeConf }) : String × Profile) ∈ sampleRegistry ∧
    sampleLib.gjsonString snapshot "ab12.status" = "" ∧
    sampleLib.gjsonString snapshot "ab12.server_addr" = "" ∧
    sampleLib.gjsonString snapshot "ab12.client_addr" = "" ∧
    sampleLib.gjsonInt snapshot "ab12.timestamp" = 0 ∧
    Contains snapshot "ab12" = true ∧
    (buildRecord sampleLib snapshot false ("ab12", { ID := 2, Conf := homeConf })).1.status
      = "" ∧
    (buildRecord sampleLib snapshot false ("ab12", { ID := 2, Conf := homeConf })).1.status
      ≠ stdis sampleLib ∧
    (listConnectionsLoop sampleLib sampleRegistry snapshot).c.map (fun r => (r.id, r.status))
      = [("10", "\x1b[32;1mConnected\x1b[0m"), ("2", "")] := by
  decide

/-- C5: for every registry and snapshot, if the snapshot holds a LiveConnection
of a profile of the registry (the key of the profile occurs in the snapshot
text) whose status capitalizes to `Connected`, then `anycon` is set, the
six-column header and six-field rows are emitted, and the record of that
profile has the Connected label as status. -/
theorem listConnections_connected (L : Lib) (hsort : SortsById L) (profiles : Registry)
    (cons : String) (e : String × Profile) (he : e ∈ profiles)
    (hin : Contains cons e.1 = true)
    (hst : L.Title (L.gjsonString cons (e.1 ++ ".status")) = "Connected") :
    (listConnectionsLoop L profiles cons).anycon = true ∧
    (∃ rows, listConnections L profiles cons = .ok
      { header := ["ID", "Name", "Status", "Connected for", "Client IP", "Server IP"],
        rows := rows } ∧ rows.length = profiles.length ∧
      ∀ row ∈ rows, row.length = 6) ∧
    (buildRecord L cons false e).1 ∈ (listConnectionsLoop L profiles cons).c ∧
    (buildRecord L cons false e).1.status = stcon L := by
  have hb : buildRecord L cons false e =
      ({ id := Itoa e.2.ID, name := L.gjsonString e.2.Conf "name", status := stcon L,
         timestamp := L.gjsonInt cons (e.1 ++ ".timestamp"),
         clientAddr := L.gjsonString cons (e.1 ++ ".client_addr"),
         serverAddr := L.gjsonString cons (e.1 ++ ".server_addr") }, true) := by
    simp only [buildRecord, hin, hst, if_true]
  have hany : (listConnectionsLoop L profiles cons).anycon = true := by
    rw [listConnectionsLoop, loop_anycon]
    simp only [Bool.or_eq_true, List.any_eq_true]
    exact Or.inr ⟨e, he, by rw [hb]⟩
  have hperm := loop_perm L hsort cons profiles {}
  refine ⟨hany, ?_, ?_, by rw [hb]⟩
  · have hlen : ¬ profiles.length = 0 := by
      intro h0
      rw [List.length_eq_zero] at h0
      rw [h0] at he
      exact absurd he (List.not_mem_nil _)
    refine ⟨(listConnectionsLoop L profiles cons).c.map (rowOf L true), ?_, ?_, ?_⟩
    · simp only [listConnections, hlen, if_false, hany, if_true]
    · rw [List.length_map]
      simpa [listConnectionsLoop] using hperm.length_eq
    · intro row hrow
      rcases List.mem_map.1 hrow with ⟨r, _, rfl⟩
      simp [rowOf]
  · refine (hperm.symm.subset ?_)
    simp only [List.nil_append, List.mem_map]
    exact ⟨e, he, rfl⟩

/-- C5 for the profile `ab12cd`, connected in the sample snapshot. -/
theorem listConnections_connected_witness :
    (("ab12cd", { ID := 10, Conf := officeConf }) : String × Profile) ∈ sampleRegistry ∧
    Contains snapshot "ab12cd" = true ∧
    sampleLib.Title (sampleLib.gjsonString snapshot ("ab12cd" ++ ".status")) = "Connected" ∧
    (listConnectionsLoop sampleLib sampleRegistry snapshot).anycon = true ∧
    (buildRecord sampleLib snapshot false ("ab12cd", { ID := 10, Conf := officeConf })).1.status
      = stcon sampleLib :=
  have h := listConnections_connected sampleLib sampleLib_sorts sampleRegistry snapshot
    ("ab12cd", { ID := 10, Conf := officeConf }) (by decide) (by decide) (by decide)
  ⟨by decide, by decide, by decide, h.1, h.2.2.2⟩

/-! ## Properties of the polling loop of `connect` -/

theorem pollLoop_done (L : Lib) (i q : Nat) (hi : ¬ i < 30) : pollLoop L i q = ([], q) := by
  rw [pollLoop]; simp [hi]

theorem pollLoop_stop (L : Lib) (i q : Nat) (hi : i < 30) (hq : L.CheckStatus q = "true") :
    pollLoop L i q = ([Event.Print ".", Event.CheckStatus], q + 1) := by
  rw [pollLoop]; simp [hi, hq]

theorem pollLoop_wait (L : Lib) (i q : Nat) (hi : i < 30) (hq : L.CheckStatus q ≠ "true") :
    pollLoop L i q = ([Event.Print ".", Event.CheckStatus, Event.Sleep 1]
      ++ (pollLoop L (i + 1) (q + 1)).1, (pollLoop L (i + 1) (q + 1)).2) := by
  rw [pollLoop]; simp [hi, hq]

/-- After `n` queries that are not affirmative the loop has run `n` waiting
rounds and goes on from the counter `i + n`. -/
theorem pollLoop_rounds (L : Lib) (n : Nat) : ∀ i q : Nat, i + n ≤ 30 →
    (∀ j, j < n → L.CheckStatus (q + j) ≠ "true") →
    pollLoop L i q = (waitingRounds n ++ (pollLoop L (i + n) (q + n)).1,
      (pollLoop L (i + n) (q + n)).2) := by
  induction n with
  | zero => intro i q _ _; simp [waitingRounds]
  | succ n ih =>
    intro i q hi hq
    have h0 : L.CheckStatus q ≠ "true" := by simpa using hq 0 (Nat.succ_pos n)
    rw [pollLoop_wait L i q (by omega) h0]
    have hrest := ih (i + 1) (q + 1) (by omega) (fun j hj => by
      have := hq (j + 1) (by omega)
      rwa [show q + 1 + j = q + (j + 1) by omega])
    rw [hrest]
    have e1 : i + 1 + n = i + (n + 1) := by omega
    have e2 : q + 1 + n = q + (n + 1) := by omega
    rw [e1, e2]
    simp [waitingRounds]

theorem queries_waitingRounds (n : Nat) : queries (waitingRounds n) = n := by
  induction n with
  | zero => rfl
  | succ n ih =>
    simp only [queries] at ih
    simp only [waitingRounds, queries, List.count_append, ih]
    have : List.count Event.CheckStatus
        [Event.Print ".", Event.CheckStatus, Event.Sleep 1] = 1 := by decide
    rw [this]; omega

theorem sleeps_waitingRounds (n : Nat) : sleeps (waitingRounds n) = n := by
  induction n with
  | zero => rfl
  | succ n ih =>
    simp only [sleeps] at ih
    simp only [waitingRounds, sleeps, List.count_append, ih]
    have : List.count (Event.Sleep 1)
        [Event.Print ".", Event.CheckStatus, Event.Sleep 1] = 1 := by decide
    rw [this]; omega

theorem indicators_waitingRounds (n : Nat) : indicators (waitingRounds n) = n := by
  induction n with
  | zero => rfl
  | succ n ih =>
    simp only [indicators] at ih
    simp only [waitingRounds, indicators, List.count_append, ih]
    have : List.count (Event.Print ".")
        [Event.Print ".", Event.CheckStatus, Event.Sleep 1] = 1 := by decide
    rw [this]; omega

/-- The trace when the `k`-th query is the first affirmative one. -/
theorem pollLoop_first_true (L : Lib) (q k : Nat) (h1 : 1 ≤ k) (h30 : k ≤ 30)
    (hk : L.CheckStatus (q + (k - 1)) = "true")
    (hbefore : ∀ j, j < k - 1 → L.CheckStatus (q + j) ≠ "true") :
    pollLoop L 0 q = (waitingRounds (k - 1) ++ [Event.Print ".", Event.CheckStatus], q + k) := by
  rw [pollLoop_rounds L (k - 1) 0 q (by omega) hbefore,
    pollLoop_stop L (0 + (k - 1)) (q + (k - 1)) (by omega) hk]
  have : q + (k - 1) + 1 = q + k := by omega
  rw [this]

/-- The trace when none of the first thirty queries is affirmative. -/
theorem pollLoop_never_true (L : Lib) (q : Nat)
    (hnone : ∀ j, j < 30 → L.CheckStatus (q + j) ≠ "true") :
    pollLoop L 0 q = (waitingRounds 30, q + 30) := by
  rw [pollLoop_rounds L 30 0 q (by omega) hnone, pollLoop_done L (0 + 30) (q + 30) (by omega)]
  simp

/-- The loop entered at the counter `i` makes at most `30 - i` queries, and
all its events are progress indicators, queries and one-second sleeps. -/
theorem pollLoop_bound (L : Lib) (n : Nat) : ∀ i q : Nat, 30 - i = n →
    queries (pollLoop L i q).1 ≤ n ∧
    ∀ ev ∈ (pollLoop L i q).1,
      ev = Event.Print "." ∨ ev = Event.CheckStatus ∨ ev = Event.Sleep 1 := by
  induction n with
  | zero =>
    intro i q h
    rw [pollLoop_done L i q (by omega)]
    simp [queries]
  | succ n ih =>
    intro i q h
    by_cases hq : L.CheckStatus q = "true"
    · rw [pollLoop_stop L i q (by omega) hq]
      refine ⟨?_, ?_⟩
      · have : queries [Event.Print ".", Event.CheckStatus] = 1 := by decide
        rw [this]; omega
      · intro ev hev
        simp only [List.mem_cons, List.mem_singleton, List.not_mem_nil, or_false] at hev
        rcases hev with rfl | rfl
        · exact Or.inl rfl
        · exact Or.inr (Or.inl rfl)
    · rw [pollLoop_wait L i q (by omega) hq]
      have hrec := ih (i + 1) (q + 1) (by omega)
      refine ⟨?_, ?_⟩
      · have h3 : queries ([Event.Print ".", Event.CheckStatus, Event.Sleep 1]
            ++ (pollLoop L (i + 1) (q + 1)).1) = 1 + queries (pollLoop L (i + 1) (q + 1)).1 := by
          simp only [queries, List.count_append]
          have : List.count Event.CheckStatus
              [Event.Print ".", Event.CheckStatus, Event.Sleep 1] = 1 := by decide
          rw [this]
        show queries ([Event.Print ".", Event.CheckStatus, Event.Sleep 1]
            ++ (pollLoop L (i + 1) (q + 1)).1) ≤ n + 1
        rw [h3]
        have := hrec.1
        omega
      · intro ev hev
        rcases List.mem_append.1 hev with hev | hev
        · simp only [List.mem_cons, List.mem_singleton, List.not_mem_nil, or_false] at hev
          exact hev
        · exact hrec.2 ev hev

/-- C6: for every sequence of `CheckStatus` answers, the polling loop makes at
most 30 queries; if the `k`-th query (`1 ≤ k ≤ 30`) is the first affirmative
one, exactly `k` queries are made in `k` iterations and the loop ends with
that query; if none of the first 30 is affirmative, exactly 30 queries are
made and the loop ends, without a fatal error. -/
theorem pollLoop_queries (L : Lib) (q : Nat) :
    queries (pollLoop L 0 q).1 ≤ 30 ∧
    (∀ k, 1 ≤ k → k ≤ 30 → L.CheckStatus (q + (k - 1)) = "true" →
      (∀ j, j < k - 1 → L.CheckStatus (q + j) ≠ "true") →
      queries (pollLoop L 0 q).1 = k ∧ (pollLoop L 0 q).2 = q + k ∧
      indicators (pollLoop L 0 q).1 = k ∧
      (pollLoop L 0 q).1.getLast? = some Event.CheckStatus) ∧
    ((∀ j, j < 30 → L.CheckStatus (q + j) ≠ "true") →
      queries (pollLoop L 0 q).1 = 30 ∧ (pollLoop L 0 q).2 = q + 30 ∧
      indicators (pollLoop L 0 q).1 = 30) ∧
    (∀ msg, Event.Fatal msg ∉ (pollLoop L 0 q).1) := by
  refine ⟨(pollLoop_bound L 30 0 q rfl).1, ?_, ?_, ?_⟩
  · intro k h1 h30 hk hbefore
    rw [pollLoop_first_true L q k h1 h30 hk hbefore]
    refine ⟨?_, rfl, ?_, ?_⟩
    · have := queries_waitingRounds (k - 1)
      simp only [queries, List.count_append] at this ⊢
      rw [this]
      have : List.count Event.CheckStatus [Event.Print ".", Event.CheckStatus] = 1 := by
        decide
      rw [this]; omega
    · have := indicators_waitingRounds (k - 1)
      simp only [indicators, List.count_append] at this ⊢
      rw [this]
      have : List.count (Event.Print ".") [Event.Print ".", Event.CheckStatus] = 1 := by
        decide
      rw [this]; omega
    · simp
  · intro hnone
    rw [pollLoop_never_true L q hnone]
    exact ⟨queries_waitingRounds 30, rfl, indicators_waitingRounds 30⟩
  · intro msg hmem
    rcases (pollLoop_bound L 30 0 q rfl).2 _ hmem with h | h | h <;> cases h

/-- C6 when the third query is the first affirmative one. -/
theorem pollLoop_queries_witness :
    sampleLib.CheckStatus (0 + (3 - 1)) = "true" ∧
    (∀ j, j < 3 - 1 → sampleLib.CheckStatus (0 + j) ≠ "true") ∧
    queries (pollLoop sampleLib 0 0).1 = 3 ∧
    (pollLoop sampleLib 0 0).1.getLast? = some Event.CheckStatus :=
  have hb : ∀ j, j < 3 - 1 → sampleLib.CheckStatus (0 + j) ≠ "true" := by
    intro j hj
    have : j = 0 ∨ j = 1 := by omega
    rcases this with rfl | rfl <;> decide
  have h := (pollLoop_queries sampleLib 0).2.1 3 (by decide) (by decide) (by decide) hb
  ⟨by decide, hb, h.1, h.2.2.2⟩

/-- C10, as the code has it: an iteration of the polling loop emits one
progress indicator, then queries the connected signal, and sleeps one second
only after an answer that is not affirmative; when the `k`-th query is the
first affirmative one the loop has run `k - 1` such waiting rounds followed by
an indicator and the query, so `k` indicators and `k - 1` sleeps have
occurred; when none of the first 30 is affirmative it has run 30 waiting
rounds. -/
theorem pollLoop_order (L : Lib) (q : Nat) :
    (∀ k, 1 ≤ k → k ≤ 30 → L.CheckStatus (q + (k - 1)) = "true" →
      (∀ j, j < k - 1 → L.CheckStatus (q + j) ≠ "true") →
      (pollLoop L 0 q).1 = waitingRounds (k - 1) ++ [Event.Print ".", Event.CheckStatus] ∧
      indicators (pollLoop L 0 q).1 = k ∧ sleeps (pollLoop L 0 q).1 = k - 1) ∧
    ((∀ j, j < 30 → L.CheckStatus (q + j) ≠ "true") →
      (pollLoop L 0 q).1 = waitingRounds 30 ∧
      indicators (pollLoop L 0 q).1 = 30 ∧ sleeps (pollLoop L 0 q).1 = 30) ∧
    (∀ n, waitingRounds (n + 1) =
      [Event.Print ".", Event.CheckStatus, Event.Sleep 1] ++ waitingRounds n) := by
  refine ⟨?_, ?_, fun n => rfl⟩
  · intro k h1 h30 hk hbefore
    rw [pollLoop_first_true L q k h1 h30 hk hbefore]
    refine ⟨rfl, ?_, ?_⟩
    · have := indicators_waitingRounds (k - 1)
      simp only [indicators, List.count_append] at this ⊢
      rw [this]
      have : List.count (Event.Print ".") [Event.Print ".", Event.CheckStatus] = 1 := by
        decide
      rw [this]; omega
    · have := sleeps_waitingRounds (k - 1)
      simp only [sleeps, List.count_append] at this ⊢
      rw [this]
      have : List.count (Event.Sleep 1) [Event.Print ".", Event.CheckStatus] = 0 := by
        decide
      rw [this]; omega
  · intro hnone
    rw [pollLoop_never_true L q hnone]
    exact ⟨rfl, indicators_waitingRounds 30, sleeps_waitingRounds 30⟩

/-- C10 when the third query is the first affirmative one. -/
theorem pollLoop_order_witness :
    sampleLib.CheckStatus (0 + (3 - 1)) = "true" ∧
    (∀ j, j < 3 - 1 → sampleLib.CheckStatus (0 + j) ≠ "true") ∧
    (pollLoop sampleLib 0 0).1 =
      [Event.Print ".", Event.CheckStatus, Event.Sleep 1,
       Event.Print ".", Event.CheckStatus, Event.Sleep 1,
       Event.Print ".", Event.CheckStatus] ∧
    sleeps (pollLoop sampleLib 0 0).1 = 3 - 1 :=
  have hb : ∀ j, j < 3 - 1 → sampleLib.CheckStatus (0 + j) ≠ "true" := by
    intro j hj
    have : j = 0 ∨ j = 1 := by omega
    rcases this with rfl | rfl <;> decide
  have h := (pollLoop_order sampleLib 0).1 3 (by decide) (by decide) (by decide) hb
  ⟨by decide, hb, h.1, h.2.2⟩

/-- C10 fails: when the first query is affirmative the loop emits one
indicator and queries at once; no sleep precedes the query and no sleep has
occurred, where the claim has one. -/
theorem pollLoop_order_counterexample :
    promptLib.CheckStatus 0 = "true" ∧
    (pollLoop promptLib 0 0).1 = [Event.Print ".", Event.CheckStatus] ∧
    sleeps (pollLoop promptLib 0 0).1 = 0 ∧
    sleeps (pollLoop promptLib 0 0).1 ≠ 1 := by
  have h : pollLoop promptLib 0 0 = ([Event.Print ".", Event.CheckStatus], 0 + 1) :=
    pollLoop_stop promptLib 0 0 (by decide) (by decide)
  rw [h]
  decide

/-! ## Properties of `disconnect` and `connect` -/

theorem disconnect_foldl (L : Lib) (id : String) (profiles : Registry) :
    ∀ acc : List Event,
    profiles.foldl (fun tr e =>
      if id = L.gjsonString e.2.Conf "name" ∨ id = Itoa e.2.ID then
        tr ++ [Event.DisconnectProfile e.1]
      else tr) acc
    = acc ++ (profiles.filter (selects L id)).map (fun e => Event.DisconnectProfile e.1) := by
  induction profiles with
  | nil => intro acc; simp
  | cons e rest ih =>
    intro acc
    rw [List.foldl_cons, ih]
    by_cases h : id = L.gjsonString e.2.Conf "name" ∨ id = Itoa e.2.ID
    · have hs : selects L id e = true := by simp [selects, h]
      simp [h, hs, List.filter_cons]
    · have hs : selects L id e = false := by simp [selects, h]
      simp [h, hs, List.filter_cons]

/-- C7: for every registry and token, `disconnect` issues exactly one
`StopConnections` call and nothing else when the token is `all`, and
otherwise no `StopConnections` call and exactly one `DisconnectProfile` call,
with the key of the profile, for each profile whose name or decimal numeric
ID equals the token: all of them when several match, none when none does. -/
theorem disconnect_calls (L : Lib) (profiles : Registry) (id : String) :
    disconnect L profiles id =
      if id = "all" then [Event.StopConnections]
      else (profiles.filter (fun e =>
        decide (id = L.gjsonString e.2.Conf "name" ∨ id = Itoa e.2.ID))).map
          (fun e => Event.DisconnectProfile e.1) := by
  unfold disconnect
  split_ifs with h
  · rfl
  · rw [disconnect_foldl]
    rfl

theorem connectCalls_append (a b : List Event) :
    connectCalls (a ++ b) = connectCalls a ++ connectCalls b := by
  simp [connectCalls]

theorem connectCalls_pollLoop (L : Lib) (i q : Nat) : connectCalls (pollLoop L i q).1 = [] := by
  unfold connectCalls
  rw [List.filter_eq_nil_iff]
  intro ev hev
  rcases (pollLoop_bound L (30 - i) i q rfl).2 ev hev with rfl | rfl | rfl <;> simp

theorem connectRequest_calls (L : Lib) (pid password : String) (st : Run) :
    connectCalls (connectRequest L pid password st).trace =
      connectCalls st.trace ++ [Event.ConnectProfile pid "" password] ∧
    (connectRequest L pid password st).fatal = st.fatal ∧
    (connectRequest L pid password st).scans = st.scans := by
  simp only [connectRequest, connectCalls_append, connectCalls_pollLoop]
  simp [connectCalls]

theorem connect_foldl (L : Lib) (id : String) (profiles : Registry) :
    ∀ (st : Run) (n : Nat), st.fatal = false → (L.GOOS = "darwin" → st.scans = n) →
    (L.GOOS = "darwin" → ∀ e ∈ profiles, selects L id e = true →
      ∃ out, L.Output (keychainCommand (L.gjsonString e.2.Conf "name")) = .ok out) →
    connectCalls (profiles.foldl (connectStep L id) st).trace
      = connectCalls st.trace ++ specConnects L id n profiles ∧
    (profiles.foldl (connectStep L id) st).fatal = false := by
  induction profiles with
  | nil => intro st n hf _ _; simp [specConnects, hf]
  | cons e rest ih =>
    intro st n hf hn hkey
    rw [List.foldl_cons]
    have hkey2 : L.GOOS = "darwin" → ∀ e2 ∈ rest, selects L id e2 = true →
        ∃ out, L.Output (keychainCommand (L.gjsonString e2.2.Conf "name")) = .ok out :=
      fun hd e2 he2 hs => hkey hd e2 (List.mem_cons_of_mem _ he2) hs
    by_cases hsel : id = L.gjsonString e.2.Conf "name" ∨ id = Itoa e.2.ID
    · have hs : selects L id e = true := by simp [selects, hsel]
      by_cases hd : L.GOOS = "darwin"
      · obtain ⟨out, hout⟩ := hkey hd e (List.mem_cons_self _ _) hs
        have hstep : connectStep L id st e = connectRequest L e.1
            (L.TrimSpace out ++ L.Scanln st.scans)
            { st with
              trace := st.trace ++ [Event.Log ("Trying to get PIN from using [" ++
                  keychainCommand (L.gjsonString e.2.Conf "name") ++ "]"),
                Event.Exec (keychainCommand (L.gjsonString e.2.Conf "name"))] ++
                [Event.Log "Fetched a PIN from keychain",
                 Event.Print "Enter the OTP code: ", Event.Scanln],
              scans := st.scans + 1 } := by
          simp only [connectStep, hf, hsel, hd, hout, if_true]
          rfl
        rw [hstep]
        have hreq := connectRequest_calls L e.1 (L.TrimSpace out ++ L.Scanln st.scans)
          { st with
            trace := st.trace ++ [Event.Log ("Trying to get PIN from using [" ++
                keychainCommand (L.gjsonString e.2.Conf "name") ++ "]"),
              Event.Exec (keychainCommand (L.gjsonString e.2.Conf "name"))] ++
              [Event.Log "Fetched a PIN from keychain",
               Event.Print "Enter the OTP code: ", Event.Scanln],
            scans := st.scans + 1 }
        have hrest := ih _ (n + 1) (hreq.2.1.trans hf)
          (fun _ => by rw [hreq.2.2]; simp [hn hd]) hkey2
        refine ⟨?_, hrest.2⟩
        rw [hrest.1, hreq.1]
        simp only [specConnects, hs, if_true, specPassword, hd, storedSecret, hout,
          connectCalls_append, ← hn hd]
        simp [connectCalls]
      · have hstep : connectStep L id st e = connectRequest L e.1 "" st := by
          simp only [connectStep, hf, hsel, hd, if_true, if_false]
          rfl
        rw [hstep]
        have hreq := connectRequest_calls L e.1 "" st
        have hrest := ih _ (n + 1) (hreq.2.1.trans hf) (fun h => absurd h hd) hkey2
        refine ⟨?_, hrest.2⟩
        rw [hrest.1, hreq.1]
        simp [specConnects, hs, specPassword, hd]
    · have hs : selects L id e = false := by simp [selects, hsel]
      have hstep : connectStep L id st e = st := by
        simp only [connectStep, hf, hsel, if_false]
        rfl
      rw [hstep]
      have hrest := ih st n hf hn hkey2
      refine ⟨?_, hrest.2⟩
      rw [hrest.1]
      simp [specConnects, hs]

/-- C8: for every registry and identifier, provided that on the keychain
platform the stored secret of every matching profile can be retrieved,
`connect` invokes `ConnectProfile` exactly once for every profile whose name
or decimal numeric ID equals the identifier, in registry order and for no
other profile, each time with the key of the profile, an empty hint and the
assembled password: empty off the keychain platform, the stored secret
directly followed by the one-time code on it. This holds for every sequence
of status answers, so a polling timeout causes no further request. -/
theorem connect_calls (L : Lib) (profiles : Registry) (id : String)
    (hkey : L.GOOS = "darwin" → ∀ e ∈ profiles, selects L id e = true →
      ∃ out, L.Output (keychainCommand (L.gjsonString e.2.Conf "name")) = .ok out) :
    connectCalls (connect L profiles id).trace = specConnects L id 0 profiles ∧
    (specConnects L id 0 profiles).length = (profiles.filter (selects L id)).length ∧
    (connect L profiles id).fatal = false := by
  have h := connect_foldl L id profiles {} 0 rfl (fun _ => rfl) hkey
  refine ⟨by simpa [connect, connectCalls] using h.1, ?_, h.2⟩
  have hlen : ∀ (l : Registry) (n : Nat),
      (specConnects L id n l).length = (l.filter (selects L id)).length := by
    intro l
    induction l with
    | nil => intro n; rfl
    | cons e rest ih =>
      intro n
      by_cases hs : selects L id e = true
      · simp [specConnects, hs, List.filter_cons, ih]
      · simp [specConnects, hs, List.filter_cons, ih]
  exact hlen profiles 0

/-- C8 on macOS for the identifier `office`. -/
theorem connect_calls_witness :
    (darwinLib.GOOS = "darwin" → ∀ e ∈ sampleRegistry, selects darwinLib "office" e = true →
      ∃ out, darwinLib.Output (keychainCommand (darwinLib.gjsonString e.2.Conf "name"))
        = .ok out) ∧
    connectCalls (connect darwinLib sampleRegistry "office").trace =
      [Event.ConnectProfile "ab12cd" "" "1234567890"] ∧
    (connect darwinLib sampleRegistry "office").fatal = false :=
  have hk : darwinLib.GOOS = "darwin" → ∀ e ∈ sampleRegistry,
      selects darwinLib "office" e = true →
      ∃ out, darwinLib.Output (keychainCommand (darwinLib.gjsonString e.2.Conf "name"))
        = .ok out := fun _ _ _ _ => ⟨"1234\n", rfl⟩
  have h := connect_calls darwinLib sampleRegistry "office" hk
  ⟨hk, h.1.trans (by decide), h.2.2⟩

/-! ## Properties of `main` -/

/-- Whatever the command line, `main` hands `disconnect` the literal `all`. -/
theorem main_disconnect_all (profiles : Registry) (args : List String) (id : String)
    (h : Call.disconnect id ∈ (main profiles args).calls) : id = "all" := by
  unfold main at h
  split at h
  · simp at h
  · simp at h
  · split_ifs at h <;> simp [thenList] at h
    exact h

/-- C9 on the command line `-d office`: `main` calls `disconnect` with `all`
and then lists, so the collaborator receives `StopConnections`; `disconnect`
called with `office` would have issued the single call
`DisconnectProfile ab12cd`. -/
theorem main_disconnect_by_name :
    main sampleRegistry ["-d", "office"] =
      { calls := [Call.disconnect "all", Call.listConnections], exit := 0 } ∧
    teardownEvents sampleLib sampleRegistry (main sampleRegistry ["-d", "office"]) =
      [Event.StopConnections] ∧
    disconnect sampleLib sampleRegistry "office" = [Event.DisconnectProfile "ab12cd"] := by
  decide

end Gotunl
